import Mathlib

/-!
Verification development for the kobo-library-sync reverse proxy
(crate kobo-server). The Rust sources are shallowly embedded: pure
functions become Lean functions, the stateful stub HTTP client becomes
explicit state passing, byte strings become lists of naturals below 256,
and fallible operations return Option or Except. External collaborators
(the flate2 gzip primitive, the http crate URI parser, the tower-http
path normalizer) are modelled at the level of their documented contracts;
everything written by the repository itself is translated line by line.
-/

deriving instance DecidableEq for Except

namespace KoboSync

/-- Byte strings are modelled as lists of natural numbers (each below 256). -/
abbrev Bytes := List Nat

/-- UTF-8 encoding of a single Unicode scalar value, exactly as the Rust and
Lean runtimes lay out string bytes. -/
def utf8EncodeChar (c : Char) : Bytes :=
  let v := c.toNat
  if v < 0x80 then [v]
  else if v < 0x800 then [0xC0 + v / 64, 0x80 + v % 64]
  else if v < 0x10000 then [0xE0 + v / 4096, 0x80 + v / 64 % 64, 0x80 + v % 64]
  else [0xF0 + v / 0x40000, 0x80 + v / 4096 % 64, 0x80 + v / 64 % 64, 0x80 + v % 64]

/-- UTF-8 encoding of a character sequence. -/
def utf8EncodeChars : List Char → Bytes
  | [] => []
  | c :: cs => utf8EncodeChar c ++ utf8EncodeChars cs

/-- UTF-8 byte content of a string; this is what Rust stores in a String. -/
def utf8Encode (s : String) : Bytes := utf8EncodeChars s.data

/-- State of the incremental UTF-8 decoder: either at a character boundary, or
inside a multi-byte sequence with `need` continuation bytes still expected,
accumulated value `val`, and minimal admissible final value `lo` (used to
reject overlong encodings). -/
inductive Utf8State where
  | clean : Utf8State
  | part (need val lo : Nat) : Utf8State
deriving DecidableEq

/-- Strict UTF-8 decoding loop: consumes bytes one at a time and accumulates
decoded characters in reverse; fails on any invalid, overlong, surrogate or
truncated sequence, as Rust strict UTF-8 validation does. -/
def utf8DecodeGo : Bytes → Utf8State → List Char → Option (List Char)
  | [], .clean, acc => some acc.reverse
  | [], .part _ _ _, _ => none
  | b :: bs, .clean, acc =>
    if h : b < 0x80 then
      utf8DecodeGo bs .clean (Char.ofNatAux b (Or.inl (by omega)) :: acc)
    else if 0xC0 ≤ b ∧ b < 0xE0 then utf8DecodeGo bs (.part 1 (b - 0xC0) 0x80) acc
    else if 0xE0 ≤ b ∧ b < 0xF0 then utf8DecodeGo bs (.part 2 (b - 0xE0) 0x800) acc
    else if 0xF0 ≤ b ∧ b < 0xF8 then utf8DecodeGo bs (.part 3 (b - 0xF0) 0x10000) acc
    else none
  | _ :: _, .part 0 _ _, _ => none
  | b :: bs, .part 1 val lo, acc =>
    if 0x80 ≤ b ∧ b < 0xC0 then
      if h : lo ≤ val * 64 + (b - 0x80) ∧ (val * 64 + (b - 0x80)).isValidChar then
        utf8DecodeGo bs .clean (Char.ofNatAux (val * 64 + (b - 0x80)) h.2 :: acc)
      else none
    else none
  | b :: bs, .part (n + 2) val lo, acc =>
    if 0x80 ≤ b ∧ b < 0xC0 then
      utf8DecodeGo bs (.part (n + 1) (val * 64 + (b - 0x80)) lo) acc
    else none

/-- Strict UTF-8 decoding of a byte string, modelling Rust `str::from_utf8`
(and hence the UTF-8 check inside `read_to_string`). -/
def utf8Decode (bs : Bytes) : Option String :=
  (utf8DecodeGo bs .clean []).map fun cs => ⟨cs⟩

/-- The Unicode replacement character that lossy decoding substitutes. -/
def replacementChar : Char := Char.ofNat 0xFFFD

/-- Lossy handling of one byte at a character boundary: an ASCII character, the
start of a multi-byte sequence, or an invalid byte replaced by U+FFFD. -/
def lossyStart (b : Nat) : Utf8State × List Char :=
  if h : b < 0x80 then (.clean, [Char.ofNatAux b (Or.inl (by omega))])
  else if 0xC0 ≤ b ∧ b < 0xE0 then (.part 1 (b - 0xC0) 0x80, [])
  else if 0xE0 ≤ b ∧ b < 0xF0 then (.part 2 (b - 0xE0) 0x800, [])
  else if 0xF0 ≤ b ∧ b < 0xF8 then (.part 3 (b - 0xF0) 0x10000, [])
  else (.clean, [replacementChar])

/-- Lossy UTF-8 decoding loop, modelling Rust `String::from_utf8_lossy`:
invalid sequences become replacement characters instead of failing. (The
granularity of replacement-character insertion for malformed input is an
approximation of the maximal-subpart rule; on valid UTF-8 input, which is the
only case the verified claims exercise, it agrees exactly with strict
decoding, as proved below.) -/
def utf8LossyGo : Bytes → Utf8State → List Char → List Char
  | [], .clean, acc => acc.reverse
  | [], .part _ _ _, acc => (replacementChar :: acc).reverse
  | b :: bs, .clean, acc =>
    match lossyStart b with
    | (st, cs) => utf8LossyGo bs st (cs.reverse ++ acc)
  | _ :: bs, .part 0 _ _, acc => utf8LossyGo bs .clean (replacementChar :: acc)
  | b :: bs, .part 1 val lo, acc =>
    if 0x80 ≤ b ∧ b < 0xC0 then
      if h : lo ≤ val * 64 + (b - 0x80) ∧ (val * 64 + (b - 0x80)).isValidChar then
        utf8LossyGo bs .clean (Char.ofNatAux (val * 64 + (b - 0x80)) h.2 :: acc)
      else utf8LossyGo bs .clean (replacementChar :: acc)
    else
      match lossyStart b with
      | (st, cs) => utf8LossyGo bs st (cs.reverse ++ (replacementChar :: acc))
  | b :: bs, .part (n + 2) val lo, acc =>
    if 0x80 ≤ b ∧ b < 0xC0 then
      utf8LossyGo bs (.part (n + 1) (val * 64 + (b - 0x80)) lo) acc
    else
      match lossyStart b with
      | (st, cs) => utf8LossyGo bs st (cs.reverse ++ (replacementChar :: acc))

/-- Lossy UTF-8 decoding of a byte string (Rust `String::from_utf8_lossy`). -/
def utf8DecodeLossy (bs : Bytes) : String := ⟨utf8LossyGo bs .clean []⟩

/-- Gzip magic bytes followed by the deflate method byte. -/
def gzipMagic : Bytes := [0x1f, 0x8b, 0x08]

/-- Modelled contract of the external flate2 gzip encoder (an external crate,
not repository code): a lossless, self-identifying byte coding. The DEFLATE
bit layout is out of scope; what the repository relies on — and what the model
provides — is that the decoder below inverts the encoder exactly and rejects
byte strings that do not carry the gzip signature. -/
def gzipCompressBytes (data : Bytes) : Bytes := gzipMagic ++ data

/-- Modelled contract of the external flate2 gzip decoder: recovers the
payload of an encoder output and fails on anything without the signature. -/
def gzipDecompressBytes : Bytes → Option Bytes
  | 0x1f :: 0x8b :: 0x08 :: rest => some rest
  | _ => none

/-- Rust `compress_gzip` (server/utils/http_body.rs): gzip-compress the UTF-8
bytes of a string. -/
def compress_gzip (text : String) : Bytes := gzipCompressBytes (utf8Encode text)

/-- Rust `decompress_gzip` (server/utils/http_body.rs): gzip-decompress and
read the result as UTF-8 text; GzDecoder::read_to_string fails on either bad
gzip data or invalid UTF-8, hence the strict decode. -/
def decompress_gzip (bytes : Bytes) : Option String :=
  (gzipDecompressBytes bytes).bind utf8Decode

/-- Header maps as ordered lists of name-value pairs. hyper's HeaderMap is
keyed case-insensitively and stores names lowercase; the model keeps every
name lowercase. -/
structure Headers where
  entries : List (String × String)
deriving DecidableEq

/-- hyper HeaderMap::get: the first value stored under the name. -/
def Headers.get (h : Headers) (name : String) : Option String :=
  (h.entries.find? fun e => e.1 == name).map fun e => e.2

/-- hyper HeaderMap::remove: drops every value stored under the name. -/
def Headers.remove (h : Headers) (name : String) : Headers :=
  ⟨h.entries.filter fun e => !(e.1 == name)⟩

/-- hyper HeaderMap::insert: all previous values under the name are removed
and the single new value is stored (overwrite, not merge). -/
def Headers.insert (h : Headers) (name value : String) : Headers :=
  ⟨(h.remove name).entries ++ [(name, value)]⟩

/-- All values stored under a name, in order. -/
def Headers.valuesOf (h : Headers) (name : String) : List String :=
  (h.entries.filter fun e => e.1 == name).map fun e => e.2

/-- Whether some entry is stored under the name. -/
def Headers.hasName (h : Headers) (name : String) : Bool :=
  h.entries.any fun e => e.1 == name

/-- HTTP status codes, modelled by their numeric value. -/
abbrev StatusCode := Nat

/-- Rust `is_gzip_encoded` (server/utils/http_body.rs): true iff the
content-encoding header value is the exact byte string gzip. -/
def is_gzip_encoded (headers : Headers) : Bool :=
  match headers.get "content-encoding" with
  | some v => v == "gzip"
  | none => false

/-- Rust `decode_response_body` (server/utils/http_body.rs): gzip path uses
the strict decompressor, plain path uses lossy UTF-8 decoding. -/
def decode_response_body (bytes : Bytes) (is_gzipped : Bool) : Except StatusCode String :=
  if is_gzipped then
    match decompress_gzip bytes with
    | some decompressed => .ok decompressed
    | none => .error 500
  else
    .ok (utf8DecodeLossy bytes)

/-- Rust `encode_response_body` (server/utils/http_body.rs). The source's only
error path is an I/O failure of the in-memory gzip writer, which cannot occur;
the Except signature of the source is kept. -/
def encode_response_body (text : String) (should_compress : Bool) : Except StatusCode Bytes :=
  if should_compress then .ok (compress_gzip text)
  else .ok (utf8Encode text)

/-- Request and response URIs, mirroring the components of http::Uri. -/
structure Uri where
  scheme : Option String
  authority : Option String
  pathAndQuery : Option String
deriving DecidableEq

/-- Inbound HTTP requests. -/
structure Request where
  method : String
  uri : Uri
  headers : Headers
  body : Bytes
deriving DecidableEq

/-- HTTP responses. -/
structure Response where
  status : StatusCode
  headers : Headers
  body : Bytes
deriving DecidableEq

/-- Requests captured by the stub client (server/state/fake_kobo_client.rs
RecordedRequest). -/
structure RecordedRequest where
  method : String
  uri : Uri
  headers : Headers
  body : Bytes
deriving DecidableEq

/-- State of the stub Kobo client: a FIFO queue of canned results and the
append-only log of every request presented to it. -/
structure ClientState where
  responses : List (Except String Response)
  recorded : List RecordedRequest
deriving DecidableEq

/-- One call on the stub client (fake_kobo_client.rs request): record the
request, then pop the front canned result, failing distinguishably when the
queue is empty. -/
def clientRequest (st : ClientState) (req : Request) : Except String Response × ClientState :=
  let recorded := st.recorded ++ [⟨req.method, req.uri, req.headers, req.body⟩]
  match st.responses with
  | [] => (.error "No stubbed response configured", ⟨[], recorded⟩)
  | r :: rest => (r, ⟨rest, recorded⟩)

/-- Shared server state (server/state/server_state.rs): the HTTP client and
the configured frontend URL. -/
structure ServerState where
  client : ClientState
  frontend_url : String
deriving DecidableEq

/-- Base URI for the Kobo API (server/routes/constants.rs). -/
def KOBO_API_BASE_URI : String := "storeapi.kobo.com"

/-- Full URL for the Kobo API (server/routes/constants.rs). -/
def KOBO_API_URL : String := "https://storeapi.kobo.com"

/-- Modelled contract of the external http crate PathAndQuery parser: accepts
nonempty strings of printable ASCII without spaces or fragment markers. The
claims only exercise clearly valid targets, so the exact boundary of the
external parser is not load-bearing. -/
def pathAndQueryValid (s : String) : Bool :=
  !s.data.isEmpty && s.data.all fun c => 0x20 < c.toNat && c.toNat < 0x7f && c != '#'

/-- Rust `generate_kobo_uri` (routes/kobo_store_request.rs): https scheme, the
fixed Kobo authority, path and query taken from the inbound target. The fixed
authority always parses; the path-and-query parse is modelled by
`pathAndQueryValid`. -/
def generate_kobo_uri (path_and_query : String) : Option Uri :=
  if pathAndQueryValid path_and_query then
    some ⟨some "https", some KOBO_API_BASE_URI, some path_and_query⟩
  else none

/-- Rust `kobo_store_request` (routes/kobo_store_request.rs): the forwarding
fallback handler. Missing path-and-query or an unparsable target fail fast
with 400; otherwise the request is retargeted at the Kobo API with the host
header overwritten, forwarded once, and the response returned after removing
the transfer-encoding header; a transport error maps to 502. The updated
client state is returned alongside, since the handler touches no other
state. -/
def kobo_store_request (server_state : ServerState) (request : Request) :
    Except StatusCode Response × ClientState :=
  match request.uri.pathAndQuery with
  | none => (.error 400, server_state.client)
  | some pq =>
    match generate_kobo_uri pq with
    | none => (.error 400, server_state.client)
    | some uri =>
      let request := { request with
        uri := uri,
        headers := request.headers.insert "host" KOBO_API_BASE_URI }
      match clientRequest server_state.client request with
      | (.ok resp, st) =>
        (.ok { resp with headers := resp.headers.remove "transfer-encoding" }, st)
      | (.error _, st) => (.error 502, st)

/-- Replacement loop behind Rust `str::replace`: non-overlapping leftmost
occurrences of `pat` are replaced by `rep`. The fuel argument starts at the
length of the text and strictly bounds the recursion; pattern matches consume
at least one character, so the loop is faithful for any nonempty pattern (the
source never calls it with an empty one). -/
def replaceChars (pat rep : List Char) : Nat → List Char → List Char
  | 0, s => s
  | fuel + 1, s =>
    match s with
    | [] => []
    | c :: rest =>
      if !pat.isEmpty && pat.isPrefixOf s then
        rep ++ replaceChars pat rep fuel (s.drop pat.length)
      else
        c :: replaceChars pat rep fuel rest

/-- Rust `str::replace`, specialised to plain string patterns. -/
def strReplace (s pat rep : String) : String :=
  ⟨replaceChars pat.data rep.data s.data.length s.data⟩

/-- Rust `initialization_handler` (routes/initialization.rs): extract the
scheme and authority the client used to reach the proxy (500 when absent),
delegate to the forwarding handler, decode the body honoring gzip, replace
every occurrence of the upstream base URL with the request URL, and re-encode
with the same compression state, keeping the response parts otherwise
untouched. -/
def initialization_handler (state : ServerState) (request : Request) :
    Except StatusCode Response × ClientState :=
  match request.uri.scheme, request.uri.authority with
  | some scheme, some authority =>
    let request_url := scheme ++ "://" ++ authority
    match kobo_store_request state request with
    | (.ok response, st) =>
      let is_gzipped := is_gzip_encoded response.headers
      match decode_response_body response.body is_gzipped with
      | .ok body_text =>
        let modified_text := strReplace body_text KOBO_API_URL request_url
        match encode_response_body modified_text is_gzipped with
        | .ok final_body => (.ok { response with body := final_body }, st)
        | .error e => (.error e, st)
      | .error e => (.error e, st)
    | (.error e, st) => (.error e, st)
  | _, _ => (.error 500, state.client)

/-- Whether the last character of a list is the given one. -/
def charsEndWith (s : List Char) (c : Char) : Bool :=
  match s.getLast? with
  | some d => d == c
  | none => false

/-- Whether a list starts with two copies of the given character. -/
def charsStartWithTwo (s : List Char) (c : Char) : Bool :=
  match s with
  | a :: b :: _ => a == c && b == c
  | _ => false

/-- Split a path-and-query string at the first question mark. -/
def splitPathQuery (pq : String) : String × Option String :=
  match pq.data.span fun c => c != '?' with
  | (p, []) => (⟨p⟩, none)
  | (p, _ :: q) => (⟨p⟩, some ⟨q⟩)

/-- Drop every leading and trailing slash (Rust str::trim_matches with a slash
pattern). -/
def trimSlashes (s : List Char) : List Char :=
  ((s.dropWhile fun c => c == '/').reverse.dropWhile fun c => c == '/').reverse

/-- Modelled contract of the external tower-http
NormalizePathLayer::trim_trailing_slash wired in router.rs: when the path ends
with a slash or starts with a double slash, it becomes a single leading slash
followed by the path trimmed of all leading and trailing slashes; the query
part is preserved unchanged. -/
def normalize_path (pq : String) : String :=
  match splitPathQuery pq with
  | (path, query) =>
    let newPath :=
      if charsEndWith path.data '/' || charsStartWithTwo path.data '/' then
        "/" ++ (⟨trimSlashes path.data⟩ : String)
      else path
    match query with
    | none => newPath
    | some q => newPath ++ "?" ++ q

/-- The normalization middleware applied to the inbound request before it
reaches any handler (router.rs layer order). -/
def normalizeRequest (request : Request) : Request :=
  { request with
    uri := { request.uri with
      pathAndQuery := request.uri.pathAndQuery.map normalize_path } }

/-- Path component of the request target (empty when the target is absent),
as route matching sees it. -/
def requestPath (request : Request) : String :=
  match request.uri.pathAndQuery with
  | some pq => (splitPathQuery pq).1
  | none => ""

/-- Whether a (normalized) request matches the designated rewrite route: a GET
of /v1/initialization. -/
def isInitializationRoute (request : Request) : Bool :=
  request.method == "GET" && requestPath request == "/v1/initialization"

/-- Modelled from the spec: the current three-argument `create_router` is
missing from src (the tree only holds an older two-argument generation that
registers just the fallback). Per spec sections 4.5 and 6, after path
normalization a GET of the designated path /v1/initialization is dispatched to
the rewriting initialization handler, and every other path or method falls
back to the plain forwarding handler. -/
def routerHandle (state : ServerState) (request : Request) :
    Except StatusCode Response × ClientState :=
  let request := normalizeRequest request
  if isInitializationRoute request then
    initialization_handler state request
  else
    kobo_store_request state request

/-- Model of a started server (server_implementation.rs Server): the
cancellation token state and the result the finished background serving task
delivers when its join handle is awaited. -/
structure ServerTask where
  cancelled : Bool
  result : Except String Unit
deriving DecidableEq

/-- Server::shutdown (server_implementation.rs): cancel the token, await the
join handle, and surface the task result. -/
def serverShutdown (s : ServerTask) : Except String Unit × ServerTask :=
  (s.result, { s with cancelled := true })

/-- Model of the App lifecycle state (app.rs): the shared cancellation token
and the mutex-guarded optional running server. The model is sequential; the
mutex discipline of the source serializes the accesses it protects. -/
structure AppState where
  cancellationCancelled : Bool
  server : Option ServerTask
deriving DecidableEq

/-- App::shutdown (app.rs): cancel the cancellation token, take the server out
of its slot, and shut it down when one was present; succeed otherwise. -/
def appShutdown (a : AppState) : Except String Unit × AppState :=
  let a := { a with cancellationCancelled := true }
  match a.server with
  | none => (.ok (), a)
  | some s => ((serverShutdown s).1, { a with server := none })

/-- An App on which start() has not completed: no server in the slot
(App::with_server_builder). -/
def appUnstarted : AppState := ⟨false, none⟩

/-- Decimal digits of a natural number, most significant first; the fuel
argument bounds the recursion and any value above log10 of the input is
enough. -/
def natDigits : Nat → Nat → List Char
  | 0, _ => []
  | fuel + 1, n =>
    if n < 10 then [Char.ofNat (48 + n)]
    else natDigits fuel (n / 10) ++ [Char.ofNat (48 + n % 10)]

/-- Decimal rendering of a natural number, used to state what a recomputed
content-length header would have to contain. -/
def natToString (n : Nat) : String := ⟨natDigits (n + 1) n⟩

theorem char_toNat_isValidChar (c : Char) : c.toNat.isValidChar := by
  rcases c.valid with h | ⟨h1, h2⟩
  · exact Or.inl (by exact_mod_cast h)
  · exact Or.inr ⟨by exact_mod_cast h1, by exact_mod_cast h2⟩

theorem char_ofNatAux_toNat (c : Char) (h : c.toNat.isValidChar) :
    Char.ofNatAux c.toNat h = c := by
  apply Char.ext
  apply UInt32.ext
  simp [Char.ofNatAux, Char.toNat, UInt32.toNat]

/-- Decoding the UTF-8 encoding of one character consumes exactly that
character and continues at the boundary state. -/
theorem decodeGo_encodeChar (c : Char) (bs : Bytes) (acc : List Char) :
    utf8DecodeGo (utf8EncodeChar c ++ bs) .clean acc = utf8DecodeGo bs .clean (c :: acc) := by
  have hval := char_toNat_isValidChar c
  have hmax : c.toNat < 0x110000 := by
    rcases hval with h | ⟨_, h⟩ <;> omega
  by_cases h1 : c.toNat < 0x80
  · rw [utf8EncodeChar]
    simp only [h1, if_pos]
    rw [List.cons_append, List.nil_append, utf8DecodeGo, dif_pos h1,
      char_ofNatAux_toNat c hval]
  · by_cases h2 : c.toNat < 0x800
    · rw [utf8EncodeChar]
      simp only [h1, if_neg, h2, if_pos, if_false, not_false_iff]
      rw [List.cons_append, List.cons_append, List.nil_append]
      rw [utf8DecodeGo, dif_neg (by omega), if_pos (by constructor <;> omega)]
      rw [utf8DecodeGo, if_pos (by constructor <;> omega)]
      have hv : (0xC0 + c.toNat / 64 - 0xC0) * 64 + (0x80 + c.toNat % 64 - 0x80) = c.toNat := by
        omega
      simp only [hv]
      rw [dif_pos ⟨by omega, hval⟩, char_ofNatAux_toNat c hval]
    · by_cases h3 : c.toNat < 0x10000
      · rw [utf8EncodeChar]
        simp only [h1, h2, h3, if_neg, if_pos, if_false, not_false_iff]
        rw [List.cons_append, List.cons_append, List.cons_append, List.nil_append]
        rw [utf8DecodeGo, dif_neg (by omega), if_neg (by omega), if_pos (by constructor <;> omega)]
        rw [utf8DecodeGo, if_pos (by constructor <;> omega)]
        have hv1 : (0xE0 + c.toNat / 4096 - 0xE0) * 64 + (0x80 + c.toNat / 64 % 64 - 0x80)
            = c.toNat / 64 := by omega
        simp only [hv1]
        rw [utf8DecodeGo, if_pos (by constructor <;> omega)]
        have hv2 : c.toNat / 64 * 64 + (0x80 + c.toNat % 64 - 0x80) = c.toNat := by omega
        simp only [hv2]
        rw [dif_pos ⟨by omega, hval⟩, char_ofNatAux_toNat c hval]
      · rw [utf8EncodeChar]
        simp only [h1, h2, h3, if_neg, if_false, not_false_iff]
        rw [List.cons_append, List.cons_append, List.cons_append, List.cons_append,
          List.nil_append]
        rw [utf8DecodeGo, dif_neg (by omega), if_neg (by omega), if_neg (by omega),
          if_pos (by constructor <;> omega)]
        rw [utf8DecodeGo, if_pos (by constructor <;> omega)]
        have hv1 : (0xF0 + c.toNat / 0x40000 - 0xF0) * 64 + (0x80 + c.toNat / 4096 % 64 - 0x80)
            = c.toNat / 4096 := by omega
        simp only [hv1]
        rw [utf8DecodeGo, if_pos (by constructor <;> omega)]
        have hv2 : c.toNat / 4096 * 64 + (0x80 + c.toNat / 64 % 64 - 0x80) = c.toNat / 64 := by
          omega
        simp only [hv2]
        rw [utf8DecodeGo, if_pos (by constructor <;> omega)]
        have hv3 : c.toNat / 64 * 64 + (0x80 + c.toNat % 64 - 0x80) = c.toNat := by omega
        simp only [hv3]
        rw [dif_pos ⟨by omega, hval⟩, char_ofNatAux_toNat c hval]

/-- Strict decoding inverts encoding on whole character lists. -/
theorem decodeGo_encodeChars (l acc : List Char) :
    utf8DecodeGo (utf8EncodeChars l) .clean acc = some (acc.reverse ++ l) := by
  induction l generalizing acc with
  | nil => simp [utf8EncodeChars, utf8DecodeGo]
  | cons c cs ih =>
    rw [utf8EncodeChars, decodeGo_encodeChar, ih]
    simp

/-- Strict UTF-8 decoding inverts UTF-8 encoding of any string. -/
theorem utf8Decode_encode (s : String) : utf8Decode (utf8Encode s) = some s := by
  rw [utf8Decode, utf8Encode, decodeGo_encodeChars]
  simp

/-- Wherever strict decoding succeeds, lossy decoding agrees with it. -/
theorem lossyGo_agrees : ∀ (bs : Bytes) (st : Utf8State) (acc out : List Char),
    utf8DecodeGo bs st acc = some out → utf8LossyGo bs st acc = out := by
  intro bs
  induction bs with
  | nil =>
    intro st acc out h
    cases st with
    | clean =>
      rw [utf8DecodeGo] at h
      rw [utf8LossyGo]
      exact Option.some.inj h
    | part n v lo => rw [utf8DecodeGo] at h; exact absurd h (by simp)
  | cons b bs ih =>
    intro st acc out h
    cases st with
    | clean =>
      rw [utf8DecodeGo] at h
      rw [utf8LossyGo]
      by_cases h1 : b < 0x80
      · rw [dif_pos h1] at h
        rw [lossyStart, dif_pos h1]
        simpa using ih _ _ _ h
      · rw [dif_neg h1] at h
        by_cases h2 : 0xC0 ≤ b ∧ b < 0xE0
        · rw [if_pos h2] at h
          rw [lossyStart, dif_neg h1, if_pos h2]
          simpa using ih _ _ _ h
        · rw [if_neg h2] at h
          by_cases h3 : 0xE0 ≤ b ∧ b < 0xF0
          · rw [if_pos h3] at h
            rw [lossyStart, dif_neg h1, if_neg h2, if_pos h3]
            simpa using ih _ _ _ h
          · rw [if_neg h3] at h
            by_cases h4 : 0xF0 ≤ b ∧ b < 0xF8
            · rw [if_pos h4] at h
              rw [lossyStart, dif_neg h1, if_neg h2, if_neg h3, if_pos h4]
              simpa using ih _ _ _ h
            · rw [if_neg h4] at h
              exact absurd h (by simp)
    | part need v lo =>
      match need with
      | 0 =>
        rw [utf8DecodeGo] at h
        exact absurd h (by simp)
      | 1 =>
        rw [utf8DecodeGo] at h
        rw [utf8LossyGo]
        by_cases hc : 0x80 ≤ b ∧ b < 0xC0
        · rw [if_pos hc] at h
          rw [if_pos hc]
          by_cases hv : lo ≤ v * 64 + (b - 0x80) ∧ (v * 64 + (b - 0x80)).isValidChar
          · rw [dif_pos hv] at h
            rw [dif_pos hv]
            exact ih _ _ _ h
          · rw [dif_neg hv] at h
            exact absurd h (by simp)
        · rw [if_neg hc] at h
          exact absurd h (by simp)
      | n + 2 =>
        rw [utf8DecodeGo] at h
        rw [utf8LossyGo]
        by_cases hc : 0x80 ≤ b ∧ b < 0xC0
        · rw [if_pos hc] at h
          rw [if_pos hc]
          exact ih _ _ _ h
        · rw [if_neg hc] at h
          exact absurd h (by simp)

/-- Lossy UTF-8 decoding also inverts UTF-8 encoding of any string. -/
theorem utf8DecodeLossy_encode (s : String) : utf8DecodeLossy (utf8Encode s) = s := by
  have h := decodeGo_encodeChars s.data []
  rw [utf8DecodeLossy, utf8Encode, lossyGo_agrees _ _ _ _ h]
  simp

/-- The modelled gzip decoder inverts the modelled gzip encoder. -/
theorem gzipDecompress_compress (d : Bytes) :
    gzipDecompressBytes (gzipCompressBytes d) = some d := rfl

/-- Decompressing a compressed string gives the string back. -/
theorem decompress_compress_gzip (t : String) :
    decompress_gzip (compress_gzip t) = some t := by
  rw [compress_gzip, decompress_gzip, gzipDecompress_compress]
  exact utf8Decode_encode t

/-- Looking a name up after filtering it out finds nothing. -/
theorem find_filter_self (es : List (String × String)) (n : String) :
    (es.filter fun e => !(e.1 == n)).find? (fun e => e.1 == n) = none := by
  rw [List.find?_eq_none]
  intro x hx
  have hm := List.mem_filter.mp hx
  simpa using hm.2

/-- Filtering one name out does not change lookups of a different name. -/
theorem find_filter_ne (es : List (String × String)) (m n : String) (hne : m ≠ n) :
    (es.filter fun e => !(e.1 == n)).find? (fun e => e.1 == m)
      = es.find? (fun e => e.1 == m) := by
  induction es with
  | nil => rfl
  | cons e es ih =>
    rw [List.filter_cons]
    by_cases hen : e.1 = n
    · have hem : (e.1 == m) = false := by
        rw [hen]
        simp only [beq_eq_false_iff_ne, ne_eq]
        exact fun hh => hne hh.symm
      rw [if_neg (by simp [hen])]
      simp only [List.find?_cons, hem]
      exact ih
    · rw [if_pos (by simp [hen])]
      cases hem : (e.1 == m) with
      | true => simp only [List.find?_cons, hem]
      | false =>
        simp only [List.find?_cons, hem]
        exact ih

theorem Headers.get_remove_self (h : Headers) (n : String) : (h.remove n).get n = none := by
  simp only [Headers.get, Headers.remove]
  rw [find_filter_self]
  rfl

theorem Headers.get_remove_ne (h : Headers) (m n : String) (hne : m ≠ n) :
    (h.remove n).get m = h.get m := by
  simp only [Headers.get, Headers.remove]
  rw [find_filter_ne h.entries m n hne]

theorem Headers.hasName_remove_self (h : Headers) (n : String) :
    (h.remove n).hasName n = false := by
  simp [Headers.hasName, Headers.remove, List.any_eq_true, List.mem_filter]

theorem Headers.valuesOf_remove_ne (h : Headers) (m n : String) (hne : m ≠ n) :
    (h.remove n).valuesOf m = h.valuesOf m := by
  simp only [Headers.valuesOf, Headers.remove]
  rw [List.filter_filter]
  congr 1
  apply List.filter_congr
  intro e _
  by_cases he : e.1 = m
  · simp [he, hne]
  · simp [he]

theorem Headers.get_insert_self (h : Headers) (n v : String) :
    (h.insert n v).get n = some v := by
  simp only [Headers.insert, Headers.get]
  rw [List.find?_append]
  have hnone : (h.remove n).entries.find? (fun e => e.1 == n) = none := by
    simp only [Headers.remove]
    exact find_filter_self h.entries n
  rw [hnone]
  simp

theorem Headers.valuesOf_insert_self (h : Headers) (n v : String) :
    (h.insert n v).valuesOf n = [v] := by
  simp only [Headers.insert, Headers.valuesOf]
  rw [List.filter_append]
  have hleft : ((h.remove n).entries.filter fun e => e.1 == n) = [] := by
    simp only [Headers.remove]
    rw [List.filter_filter, List.filter_eq_nil_iff]
    intro e _
    simp
  rw [hleft]
  simp

/-- The recorded log grows by exactly the presented request on every client
call, whatever the canned queue holds. -/
theorem clientRequest_recorded (st : ClientState) (req : Request) :
    (clientRequest st req).2.recorded
      = st.recorded ++ [⟨req.method, req.uri, req.headers, req.body⟩] := by
  rw [clientRequest]
  cases st.responses <;> rfl

/-- The initialization handler threads exactly the client state produced by
the forwarding handler whenever the request URI carries scheme and
authority. -/
theorem initialization_handler_client (state : ServerState) (request : Request)
    (s a : String) (hs : request.uri.scheme = some s) (ha : request.uri.authority = some a) :
    (initialization_handler state request).2 = (kobo_store_request state request).2 := by
  rw [initialization_handler, hs, ha]
  rcases hk : kobo_store_request state request with ⟨res, st⟩
  cases res with
  | error e => rfl
  | ok response =>
    simp only
    cases hd : decode_response_body response.body (is_gzip_encoded response.headers) with
    | error e => rfl
    | ok body_text =>
      simp only
      cases he : encode_response_body
          (strReplace body_text KOBO_API_URL (s ++ "://" ++ a))
          (is_gzip_encoded response.headers) with
      | error e => rfl
      | ok final_body => rfl

/-- Any request the forwarding handler records on the client has been
retargeted: https scheme, the fixed Kobo authority, the inbound target as the
path, the host header overwritten, and the inbound method and body kept. -/
theorem kobo_recorded_shape (state : ServerState) (request : Request) (r : RecordedRequest)
    (hrec : (kobo_store_request state request).2.recorded
      = state.client.recorded ++ [r]) :
    ∃ pq, request.uri.pathAndQuery = some pq ∧ pathAndQueryValid pq = true ∧
      r = ⟨request.method, ⟨some "https", some KOBO_API_BASE_URI, some pq⟩,
           request.headers.insert "host" KOBO_API_BASE_URI, request.body⟩ := by
  cases hpq : request.uri.pathAndQuery with
  | none =>
    simp only [kobo_store_request, hpq] at hrec
    simp at hrec
  | some pq =>
    simp only [kobo_store_request, hpq] at hrec
    cases hg : generate_kobo_uri pq with
    | none =>
      simp only [hg] at hrec
      simp at hrec
    | some uri =>
      simp only [hg] at hrec
      rw [generate_kobo_uri] at hg
      by_cases hv : pathAndQueryValid pq = true
      · rw [if_pos hv] at hg
        have huri : uri = ⟨some "https", some KOBO_API_BASE_URI, some pq⟩ :=
          (Option.some.inj hg).symm
        refine ⟨pq, rfl, hv, ?_⟩
        rcases hc : clientRequest state.client
            { request with
              uri := uri,
              headers := request.headers.insert "host" KOBO_API_BASE_URI } with ⟨res, st⟩
        have hst : st.recorded = state.client.recorded
            ++ [⟨request.method, uri, request.headers.insert "host" KOBO_API_BASE_URI,
                 request.body⟩] := by
          have hcr := clientRequest_recorded state.client
            { request with
              uri := uri,
              headers := request.headers.insert "host" KOBO_API_BASE_URI }
          rw [hc] at hcr
          exact hcr
        have hrec' : st.recorded = state.client.recorded ++ [r] := by
          rw [hc] at hrec
          cases res with
          | ok resp => exact hrec
          | error e => exact hrec
        rw [hst] at hrec'
        have hcanc := List.append_cancel_left hrec'.symm
        have hr := (List.cons.injEq _ _ _ _).mp hcanc
        rw [huri] at hr
        exact hr.1
      · rw [if_neg hv] at hg
        exact absurd hg (by simp)

theorem normalizeRequest_method (request : Request) :
    (normalizeRequest request).method = request.method := rfl

theorem normalizeRequest_scheme (request : Request) :
    (normalizeRequest request).uri.scheme = request.uri.scheme := rfl

theorem normalizeRequest_authority (request : Request) :
    (normalizeRequest request).uri.authority = request.uri.authority := rfl

theorem normalizeRequest_headers (request : Request) :
    (normalizeRequest request).headers = request.headers := rfl

theorem normalizeRequest_body (request : Request) :
    (normalizeRequest request).body = request.body := rfl

theorem normalizeRequest_pathAndQuery (request : Request) (pq : String)
    (hpq : request.uri.pathAndQuery = some pq) :
    (normalizeRequest request).uri.pathAndQuery = some (normalize_path pq) := by
  simp [normalizeRequest, hpq]

/-- Full behavior of the forwarding handler when the target parses and the
client queue holds a success at the front. -/
theorem kobo_success (state : ServerState) (request : Request)
    (pq : String) (resp : Response) (rest : List (Except String Response))
    (hpq : request.uri.pathAndQuery = some pq)
    (hv : pathAndQueryValid pq = true)
    (hq : state.client.responses = .ok resp :: rest) :
    kobo_store_request state request
      = (.ok ⟨resp.status, resp.headers.remove "transfer-encoding", resp.body⟩,
         ⟨rest, state.client.recorded
           ++ [⟨request.method, ⟨some "https", some KOBO_API_BASE_URI, some pq⟩,
                request.headers.insert "host" KOBO_API_BASE_URI, request.body⟩]⟩) := by
  simp only [kobo_store_request, hpq, generate_kobo_uri, hv, if_true, clientRequest, hq]

/-- Full behavior of the forwarding handler when the target parses and the
client queue holds a transport error at the front. -/
theorem kobo_failure (state : ServerState) (request : Request)
    (pq e : String) (rest : List (Except String Response))
    (hpq : request.uri.pathAndQuery = some pq)
    (hv : pathAndQueryValid pq = true)
    (hq : state.client.responses = .error e :: rest) :
    kobo_store_request state request
      = (.error 502,
         ⟨rest, state.client.recorded
           ++ [⟨request.method, ⟨some "https", some KOBO_API_BASE_URI, some pq⟩,
                request.headers.insert "host" KOBO_API_BASE_URI, request.body⟩]⟩) := by
  simp only [kobo_store_request, hpq, generate_kobo_uri, hv, if_true, clientRequest, hq]

/-- Full behavior of the rewriting handler on a gzipped upstream body: the
body is decompressed, the upstream base URL replaced by the request URL, and
the result re-compressed; everything else is what the forwarding handler
returned. -/
theorem initialization_handler_gzip (state : ServerState) (request : Request)
    (scheme authority pq text : String) (resp : Response)
    (rest : List (Except String Response))
    (hscheme : request.uri.scheme = some scheme)
    (hauth : request.uri.authority = some authority)
    (hpq : request.uri.pathAndQuery = some pq)
    (hv : pathAndQueryValid pq = true)
    (hq : state.client.responses = .ok resp :: rest)
    (henc : resp.headers.get "content-encoding" = some "gzip")
    (hbody : resp.body = compress_gzip text) :
    initialization_handler state request
      = (.ok ⟨resp.status, resp.headers.remove "transfer-encoding",
              compress_gzip (strReplace text KOBO_API_URL (scheme ++ "://" ++ authority))⟩,
         ⟨rest, state.client.recorded
           ++ [⟨request.method, ⟨some "https", some KOBO_API_BASE_URI, some pq⟩,
                request.headers.insert "host" KOBO_API_BASE_URI, request.body⟩]⟩) := by
  have hgz : is_gzip_encoded (resp.headers.remove "transfer-encoding") = true := by
    rw [is_gzip_encoded, Headers.get_remove_ne _ _ _ (by decide), henc]
    rfl
  simp only [initialization_handler, hscheme, hauth,
    kobo_success state request pq resp rest hpq hv hq, hgz, hbody,
    decode_response_body, if_true, decompress_compress_gzip,
    encode_response_body]

/-- Full behavior of the rewriting handler on a plain (non-gzip) upstream
body: the substitution is applied at the text level and the body stays
plain. -/
theorem initialization_handler_plain (state : ServerState) (request : Request)
    (scheme authority pq text : String) (resp : Response)
    (rest : List (Except String Response))
    (hscheme : request.uri.scheme = some scheme)
    (hauth : request.uri.authority = some authority)
    (hpq : request.uri.pathAndQuery = some pq)
    (hv : pathAndQueryValid pq = true)
    (hq : state.client.responses = .ok resp :: rest)
    (henc : resp.headers.get "content-encoding" = none)
    (hbody : resp.body = utf8Encode text) :
    initialization_handler state request
      = (.ok ⟨resp.status, resp.headers.remove "transfer-encoding",
              utf8Encode (strReplace text KOBO_API_URL (scheme ++ "://" ++ authority))⟩,
         ⟨rest, state.client.recorded
           ++ [⟨request.method, ⟨some "https", some KOBO_API_BASE_URI, some pq⟩,
                request.headers.insert "host" KOBO_API_BASE_URI, request.body⟩]⟩) := by
  have hgz : is_gzip_encoded (resp.headers.remove "transfer-encoding") = false := by
    rw [is_gzip_encoded, Headers.get_remove_ne _ _ _ (by decide), henc]
  simp only [initialization_handler, hscheme, hauth,
    kobo_success state request pq resp rest hpq hv hq, hgz, hbody,
    decode_response_body, Bool.false_eq_true, if_false,
    encode_response_body, utf8DecodeLossy_encode]

/-- Claim C3: decoding the result of encoding any text with any compression
flag, using the same flag, yields the text again — the gzip round-trip law,
covering the empty string and multi-byte Unicode since the text is an
arbitrary string. -/
theorem c3_decode_encode_roundtrip (t : String) (c : Bool) :
    (encode_response_body t c).bind (fun bytes => decode_response_body bytes c)
      = .ok t := by
  cases c with
  | false =>
    simp [encode_response_body, decode_response_body, Except.bind, utf8DecodeLossy_encode]
  | true =>
    simp [encode_response_body, decode_response_body, Except.bind, decompress_compress_gzip]

/-- Claim C8: is_gzip_encoded is true exactly when the content-encoding
header value is the exact literal gzip; any other value — including a
compound one such as br-comma-gzip — and an absent header yield false. -/
theorem c8_is_gzip_exact (headers : Headers) :
    (is_gzip_encoded headers = true ↔ headers.get "content-encoding" = some "gzip") ∧
    is_gzip_encoded ⟨[("content-encoding", "br, gzip")]⟩ = false ∧
    is_gzip_encoded ⟨[]⟩ = false := by
  refine ⟨?_, by decide, by decide⟩
  cases hv : headers.get "content-encoding" with
  | none => simp [is_gzip_encoded, hv]
  | some v => simp [is_gzip_encoded, hv]

/-- Claim C6: a request whose URI has no path-and-query component is rejected
with 400 and the Upstream Client is never invoked — the whole client state,
including the recorded-request log, is returned untouched (so an empty log
stays empty). -/
theorem c6_missing_path_rejected (state : ServerState) (request : Request)
    (hpq : request.uri.pathAndQuery = none) :
    kobo_store_request state request = (.error 400, state.client) ∧
    (kobo_store_request state request).2.recorded = state.client.recorded := by
  constructor <;> simp only [kobo_store_request, hpq]

/-- Claim C6 witness: a concrete empty-target request against a client whose
log starts empty is rejected with 400 and the log stays empty. -/
theorem c6_missing_path_rejected_witness :
    kobo_store_request ⟨⟨[], []⟩, "http://localhost:8089"⟩
        ⟨"GET", ⟨none, none, none⟩, ⟨[]⟩, []⟩
      = (.error 400, ⟨[], []⟩) ∧
    (kobo_store_request ⟨⟨[], []⟩, "http://localhost:8089"⟩
        ⟨"GET", ⟨none, none, none⟩, ⟨[]⟩, []⟩).2.recorded = [] :=
  c6_missing_path_rejected ⟨⟨[], []⟩, "http://localhost:8089"⟩
    ⟨"GET", ⟨none, none, none⟩, ⟨[]⟩, []⟩ rfl

/-- Claim C5: when the Upstream Client reports a transport error the
forwarding handler responds 502 having made exactly one upstream attempt:
exactly one request is appended to the log, exactly one canned result is
consumed, and there is no retry and no fallback content. -/
theorem c5_transport_error_502 (state : ServerState) (request : Request)
    (pq e : String) (rest : List (Except String Response))
    (hpq : request.uri.pathAndQuery = some pq)
    (hv : pathAndQueryValid pq = true)
    (hq : state.client.responses = .error e :: rest) :
    (kobo_store_request state request).1 = .error 502 ∧
    (kobo_store_request state request).2.responses = rest ∧
    (kobo_store_request state request).2.recorded
      = state.client.recorded
        ++ [⟨request.method, ⟨some "https", some KOBO_API_BASE_URI, some pq⟩,
             request.headers.insert "host" KOBO_API_BASE_URI, request.body⟩] := by
  rw [kobo_failure state request pq e rest hpq hv hq]
  exact ⟨rfl, rfl, rfl⟩

/-- Claim C5 witness: a concrete request with a stubbed transport failure
yields 502 after exactly one recorded attempt. -/
theorem c5_transport_error_502_witness :
    (kobo_store_request ⟨⟨[.error "stubbed failure"], []⟩, "f"⟩
        ⟨"GET", ⟨none, none, some "/v1/library/sync"⟩, ⟨[]⟩, []⟩).1 = .error 502 ∧
    (kobo_store_request ⟨⟨[.error "stubbed failure"], []⟩, "f"⟩
        ⟨"GET", ⟨none, none, some "/v1/library/sync"⟩, ⟨[]⟩, []⟩).2.responses = [] ∧
    (kobo_store_request ⟨⟨[.error "stubbed failure"], []⟩, "f"⟩
        ⟨"GET", ⟨none, none, some "/v1/library/sync"⟩, ⟨[]⟩, []⟩).2.recorded
      = [] ++ [⟨"GET", ⟨some "https", some KOBO_API_BASE_URI, some "/v1/library/sync"⟩,
               (⟨[]⟩ : Headers).insert "host" KOBO_API_BASE_URI, []⟩] :=
  c5_transport_error_502 ⟨⟨[.error "stubbed failure"], []⟩, "f"⟩
    ⟨"GET", ⟨none, none, some "/v1/library/sync"⟩, ⟨[]⟩, []⟩
    "/v1/library/sync" "stubbed failure" [] rfl (by decide) rfl

/-- Claim C4: on upstream success the forwarding handler returns the upstream
status and body unchanged and the upstream headers unchanged except that no
transfer-encoding header is ever carried, whatever its upstream value was. -/
theorem c4_transfer_encoding_removed (state : ServerState) (request : Request)
    (pq : String) (resp : Response) (rest : List (Except String Response))
    (hpq : request.uri.pathAndQuery = some pq)
    (hv : pathAndQueryValid pq = true)
    (hq : state.client.responses = .ok resp :: rest) :
    ∃ out, (kobo_store_request state request).1 = .ok out ∧
      out.status = resp.status ∧
      out.body = resp.body ∧
      out.headers.hasName "transfer-encoding" = false ∧
      out.headers.get "transfer-encoding" = none ∧
      ∀ name, name ≠ "transfer-encoding" →
        out.headers.valuesOf name = resp.headers.valuesOf name := by
  refine ⟨⟨resp.status, resp.headers.remove "transfer-encoding", resp.body⟩,
    ?_, rfl, rfl, ?_, ?_, ?_⟩
  · rw [kobo_success state request pq resp rest hpq hv hq]
  · exact Headers.hasName_remove_self _ _
  · exact Headers.get_remove_self _ _
  · intro name hn
    exact Headers.valuesOf_remove_ne _ _ _ hn

/-- Claim C4 witness: a concrete upstream response carrying a chunked
transfer-encoding header is forwarded without it, everything else intact. -/
theorem c4_transfer_encoding_removed_witness :
    ∃ out, (kobo_store_request
        ⟨⟨[.ok ⟨200, ⟨[("transfer-encoding", "chunked"), ("content-type", "text/plain")]⟩,
            [104, 105]⟩], []⟩, "f"⟩
        ⟨"GET", ⟨none, none, some "/"⟩, ⟨[]⟩, []⟩).1 = .ok out ∧
      out.status = 200 ∧
      out.body = [104, 105] ∧
      out.headers.hasName "transfer-encoding" = false ∧
      out.headers.get "transfer-encoding" = none ∧
      ∀ name, name ≠ "transfer-encoding" →
        out.headers.valuesOf name
          = (⟨[("transfer-encoding", "chunked"), ("content-type", "text/plain")]⟩ :
              Headers).valuesOf name :=
  c4_transfer_encoding_removed
    ⟨⟨[.ok ⟨200, ⟨[("transfer-encoding", "chunked"), ("content-type", "text/plain")]⟩,
        [104, 105]⟩], []⟩, "f"⟩
    ⟨"GET", ⟨none, none, some "/"⟩, ⟨[]⟩, []⟩
    "/" ⟨200, ⟨[("transfer-encoding", "chunked"), ("content-type", "text/plain")]⟩,
      [104, 105]⟩ [] rfl (by decide) rfl

/-- Claim C9: shutdown is idempotent and safe before start: an unstarted App
shuts down successfully, a second shutdown after any first one is a successful
no-op on the state, and the cancellation signal is effectively cancelled only
once (it is already cancelled after the first call and stays so). -/
theorem c9_shutdown_idempotent (a : AppState) :
    appShutdown appUnstarted = (.ok (), ⟨true, none⟩) ∧
    appShutdown (appShutdown a).2 = (.ok (), (appShutdown a).2) ∧
    (appShutdown a).2.cancellationCancelled = true := by
  cases ha : a.server with
  | none => refine ⟨rfl, ?_, ?_⟩ <;> simp [appShutdown, ha]
  | some s => refine ⟨rfl, ?_, ?_⟩ <;> simp [appShutdown, serverShutdown, ha]

/-- Claim C10: the configured frontend URL has no effect on any response —
states differing only in frontend_url produce identical results from the
router and from each handler, because no handler reads the field; the
substitution target comes solely from the inbound request URI. -/
theorem c10_frontend_url_unused (c : ClientState) (f1 f2 : String) (request : Request) :
    routerHandle ⟨c, f1⟩ request = routerHandle ⟨c, f2⟩ request ∧
    initialization_handler ⟨c, f1⟩ request = initialization_handler ⟨c, f2⟩ request ∧
    kobo_store_request ⟨c, f1⟩ request = kobo_store_request ⟨c, f2⟩ request :=
  ⟨rfl, rfl, rfl⟩

/-- Claim C2: every request the Upstream Client is actually presented with has
been retargeted to https on the fixed Kobo authority with the host header
overwritten to exactly that authority, keeps the inbound method and body, and
carries the inbound target normalized — concretely, an inbound path of three
leading and three trailing slashes around some-path is observed upstream as
the plain slash-separated path. -/
theorem c2_forwarded_request_shape (state : ServerState) (request : Request)
    (pq : String) (hpq : request.uri.pathAndQuery = some pq)
    (r : RecordedRequest)
    (hrec : (routerHandle state request).2.recorded = state.client.recorded ++ [r]) :
    r.uri.scheme = some "https" ∧
    r.uri.authority = some KOBO_API_BASE_URI ∧
    r.headers.get "host" = some KOBO_API_BASE_URI ∧
    r.headers.valuesOf "host" = [KOBO_API_BASE_URI] ∧
    r.method = request.method ∧
    r.body = request.body ∧
    r.uri.pathAndQuery = some (normalize_path pq) ∧
    normalize_path "///some/path///" = "/some/path" := by
  have hrec' : (kobo_store_request state (normalizeRequest request)).2.recorded
      = state.client.recorded ++ [r] := by
    simp only [routerHandle] at hrec
    by_cases hcond : isInitializationRoute (normalizeRequest request) = true
    · rw [if_pos hcond] at hrec
      cases hs : (normalizeRequest request).uri.scheme with
      | none =>
        simp only [initialization_handler, hs] at hrec
        simp at hrec
      | some s =>
        cases ha : (normalizeRequest request).uri.authority with
        | none =>
          simp only [initialization_handler, hs, ha] at hrec
          simp at hrec
        | some a =>
          rw [initialization_handler_client state _ s a hs ha] at hrec
          exact hrec
    · rw [if_neg hcond] at hrec
      exact hrec
  obtain ⟨pq', hpq', hv, hr⟩ := kobo_recorded_shape state (normalizeRequest request) r hrec'
  rw [normalizeRequest_pathAndQuery request pq hpq] at hpq'
  have hpqn : pq' = normalize_path pq := (Option.some.inj hpq').symm
  subst hr
  refine ⟨rfl, rfl, ?_, ?_, rfl, rfl, ?_, by decide⟩
  · exact Headers.get_insert_self _ _ _
  · exact Headers.valuesOf_insert_self _ _ _
  · rw [hpqn]

/-- Claim C2 witness: a concrete POST with body bytes and a messy path; the
single recorded upstream request exhibits every property. -/
theorem c2_forwarded_request_shape_witness :
    (⟨"POST", ⟨some "https", some KOBO_API_BASE_URI, some "/some/path"⟩,
      (⟨[("host", "device.local")]⟩ : Headers).insert "host" KOBO_API_BASE_URI,
      [1, 2, 3]⟩ : RecordedRequest).uri.scheme = some "https" ∧
    (⟨"POST", ⟨some "https", some KOBO_API_BASE_URI, some "/some/path"⟩,
      (⟨[("host", "device.local")]⟩ : Headers).insert "host" KOBO_API_BASE_URI,
      [1, 2, 3]⟩ : RecordedRequest).headers.get "host" = some KOBO_API_BASE_URI ∧
    (⟨"POST", ⟨some "https", some KOBO_API_BASE_URI, some "/some/path"⟩,
      (⟨[("host", "device.local")]⟩ : Headers).insert "host" KOBO_API_BASE_URI,
      [1, 2, 3]⟩ : RecordedRequest).headers.valuesOf "host" = [KOBO_API_BASE_URI] ∧
    (⟨"POST", ⟨some "https", some KOBO_API_BASE_URI, some "/some/path"⟩,
      (⟨[("host", "device.local")]⟩ : Headers).insert "host" KOBO_API_BASE_URI,
      [1, 2, 3]⟩ : RecordedRequest).uri.pathAndQuery
        = some (normalize_path "///some/path///") := by
  have h := c2_forwarded_request_shape
    ⟨⟨[.ok ⟨200, ⟨[]⟩, []⟩], []⟩, "http://localhost:8089"⟩
    ⟨"POST", ⟨none, none, some "///some/path///"⟩, ⟨[("host", "device.local")]⟩, [1, 2, 3]⟩
    "///some/path///" rfl
    ⟨"POST", ⟨some "https", some KOBO_API_BASE_URI, some "/some/path"⟩,
      (⟨[("host", "device.local")]⟩ : Headers).insert "host" KOBO_API_BASE_URI, [1, 2, 3]⟩
    (by decide)
  exact ⟨h.1, h.2.2.1, h.2.2.2.1, h.2.2.2.2.2.2.1⟩

/-- Claim C1 counterexample: frontend URL configured as http://localhost:8089,
gzipped upstream body containing the base URL, but the device reaches the
proxy under the authority example.com:8080; the decompressed response body
substitutes the request URL, not the configured frontend URL, so the claim as
stated is false at this input. -/
theorem c1_counterexample :
    ((routerHandle
        ⟨⟨[.ok ⟨200, ⟨[("content-encoding", "gzip")]⟩,
            compress_gzip "a https://storeapi.kobo.com/v1/library/sync b"⟩], []⟩,
          "http://localhost:8089"⟩
        ⟨"GET", ⟨some "http", some "example.com:8080", some "/v1/initialization"⟩,
         ⟨[]⟩, []⟩).1.toOption.map fun out => decompress_gzip out.body)
      = some (some "a http://example.com:8080/v1/library/sync b") ∧
    ¬ ((routerHandle
        ⟨⟨[.ok ⟨200, ⟨[("content-encoding", "gzip")]⟩,
            compress_gzip "a https://storeapi.kobo.com/v1/library/sync b"⟩], []⟩,
          "http://localhost:8089"⟩
        ⟨"GET", ⟨some "http", some "example.com:8080", some "/v1/initialization"⟩,
         ⟨[]⟩, []⟩).1.toOption.map fun out => decompress_gzip out.body)
      = some (some (strReplace "a https://storeapi.kobo.com/v1/library/sync b"
          KOBO_API_URL "http://localhost:8089")) := by
  constructor <;> decide

/-- Claim C1 (amended): a GET of /v1/initialization with an absolute request
URI is dispatched through the router to the rewriting handler rather than the
forwarding fallback; when the upstream body is gzipped the response is still
gzip-encoded and its decompressed body equals the upstream text with every
occurrence of the upstream base URL replaced by the scheme-and-authority of
the inbound request URI — the address the client used to reach the proxy, not
the configured frontend URL (the two coincide when the device addresses the
proxy at the configured frontend URL). -/
theorem c1_initialization_rewrite (state : ServerState) (request : Request)
    (scheme authority text : String) (resp : Response)
    (rest : List (Except String Response))
    (hmethod : request.method = "GET")
    (hpq : request.uri.pathAndQuery = some "/v1/initialization")
    (hscheme : request.uri.scheme = some scheme)
    (hauth : request.uri.authority = some authority)
    (hq : state.client.responses = .ok resp :: rest)
    (henc : resp.headers.get "content-encoding" = some "gzip")
    (hbody : resp.body = compress_gzip text) :
    routerHandle state request = initialization_handler state (normalizeRequest request) ∧
    ∃ out, (routerHandle state request).1 = .ok out ∧
      is_gzip_encoded out.headers = true ∧
      decompress_gzip out.body
        = some (strReplace text KOBO_API_URL (scheme ++ "://" ++ authority)) := by
  have hpq' : (normalizeRequest request).uri.pathAndQuery = some "/v1/initialization" := by
    rw [normalizeRequest_pathAndQuery request _ hpq]
    decide
  have hcond : isInitializationRoute (normalizeRequest request) = true := by
    simp only [isInitializationRoute, requestPath, normalizeRequest_method, hmethod, hpq']
    decide
  have hrouter : routerHandle state request
      = initialization_handler state (normalizeRequest request) := by
    simp only [routerHandle, hcond, if_true]
  have hinit := initialization_handler_gzip state (normalizeRequest request)
    scheme authority "/v1/initialization" text resp rest
    (by rw [normalizeRequest_scheme]; exact hscheme)
    (by rw [normalizeRequest_authority]; exact hauth)
    hpq' (by decide) hq henc hbody
  refine ⟨hrouter,
    ⟨resp.status, resp.headers.remove "transfer-encoding",
     compress_gzip (strReplace text KOBO_API_URL (scheme ++ "://" ++ authority))⟩,
    ?_, ?_, ?_⟩
  · rw [hrouter, hinit]
  · rw [is_gzip_encoded, Headers.get_remove_ne _ _ _ (by decide), henc]
    rfl
  · exact decompress_compress_gzip _

/-- Claim C1 witness: the spec scenario realized — the device addresses the
proxy at the configured frontend URL http://localhost:8089, so the rewritten
gzipped body carries exactly that URL. -/
theorem c1_initialization_rewrite_witness :
    routerHandle
        ⟨⟨[.ok ⟨200, ⟨[("content-encoding", "gzip")]⟩,
            compress_gzip "a https://storeapi.kobo.com/v1/library/sync b"⟩], []⟩,
          "http://localhost:8089"⟩
        ⟨"GET", ⟨some "http", some "localhost:8089", some "/v1/initialization"⟩, ⟨[]⟩, []⟩
      = initialization_handler
          ⟨⟨[.ok ⟨200, ⟨[("content-encoding", "gzip")]⟩,
              compress_gzip "a https://storeapi.kobo.com/v1/library/sync b"⟩], []⟩,
            "http://localhost:8089"⟩
          (normalizeRequest
            ⟨"GET", ⟨some "http", some "localhost:8089", some "/v1/initialization"⟩,
             ⟨[]⟩, []⟩) ∧
    ∃ out, (routerHandle
        ⟨⟨[.ok ⟨200, ⟨[("content-encoding", "gzip")]⟩,
            compress_gzip "a https://storeapi.kobo.com/v1/library/sync b"⟩], []⟩,
          "http://localhost:8089"⟩
        ⟨"GET", ⟨some "http", some "localhost:8089", some "/v1/initialization"⟩,
         ⟨[]⟩, []⟩).1 = .ok out ∧
      is_gzip_encoded out.headers = true ∧
      decompress_gzip out.body
        = some (strReplace "a https://storeapi.kobo.com/v1/library/sync b"
            KOBO_API_URL ("http" ++ "://" ++ "localhost:8089")) :=
  c1_initialization_rewrite
    ⟨⟨[.ok ⟨200, ⟨[("content-encoding", "gzip")]⟩,
        compress_gzip "a https://storeapi.kobo.com/v1/library/sync b"⟩], []⟩,
      "http://localhost:8089"⟩
    ⟨"GET", ⟨some "http", some "localhost:8089", some "/v1/initialization"⟩, ⟨[]⟩, []⟩
    "http" "localhost:8089" "a https://storeapi.kobo.com/v1/library/sync b"
    ⟨200, ⟨[("content-encoding", "gzip")]⟩,
      compress_gzip "a https://storeapi.kobo.com/v1/library/sync b"⟩ []
    rfl rfl rfl rfl rfl (by decide) rfl

/-- Claim C7 counterexample: a plain upstream response carrying content-length
25 and a 25-byte body; the rewritten body is 21 bytes, yet the returned
content-length header is still the stale 25, not the 21 the claim requires —
the claim as stated is false at this input. -/
theorem c7_counterexample :
    ((routerHandle
        ⟨⟨[.ok ⟨200, ⟨[("content-length", "25")]⟩,
            utf8Encode "https://storeapi.kobo.com"⟩], []⟩,
          "http://localhost:8089"⟩
        ⟨"GET", ⟨some "http", some "localhost:8089", some "/v1/initialization"⟩,
         ⟨[]⟩, []⟩).1.toOption.map
        fun out => (out.headers.get "content-length", natToString out.body.length))
      = some (some "25", "21") ∧
    ("25" : String) ≠ "21" := by
  constructor <;> decide

/-- Claim C7 (amended): for every response the rewriting handler produces —
gzipped or plain upstream alike — the upstream response's status and headers
are returned unchanged apart from transfer-encoding removal; in particular a
content-length header, if present, is forwarded verbatim with its stale
upstream value and is not recomputed to the byte length of the rewritten
body. -/
theorem c7_headers_forwarded (state : ServerState) (request : Request)
    (pq : String) (resp : Response) (rest : List (Except String Response)) (out : Response)
    (hpq : request.uri.pathAndQuery = some pq)
    (hv : pathAndQueryValid pq = true)
    (hq : state.client.responses = .ok resp :: rest)
    (hout : (initialization_handler state request).1 = .ok out) :
    out.status = resp.status ∧
    out.headers = resp.headers.remove "transfer-encoding" ∧
    out.headers.get "content-length" = resp.headers.get "content-length" ∧
    ∀ name, name ≠ "transfer-encoding" →
      out.headers.valuesOf name = resp.headers.valuesOf name := by
  have hmain : out.status = resp.status
      ∧ out.headers = resp.headers.remove "transfer-encoding" := by
    cases hs : request.uri.scheme with
    | none =>
      simp only [initialization_handler, hs] at hout
      exact absurd hout (by simp)
    | some s =>
      cases ha : request.uri.authority with
      | none =>
        simp only [initialization_handler, hs, ha] at hout
        exact absurd hout (by simp)
      | some a =>
        simp only [initialization_handler, hs, ha,
          kobo_success state request pq resp rest hpq hv hq] at hout
        cases hd : decode_response_body resp.body
            (is_gzip_encoded (resp.headers.remove "transfer-encoding")) with
        | error e =>
          simp only [hd] at hout
          exact absurd hout (by simp)
        | ok body_text =>
          simp only [hd] at hout
          cases he : encode_response_body
              (strReplace body_text KOBO_API_URL (s ++ "://" ++ a))
              (is_gzip_encoded (resp.headers.remove "transfer-encoding")) with
          | error e =>
            simp only [he] at hout
            exact absurd hout (by simp)
          | ok final_body =>
            simp only [he] at hout
            have hrec := Except.ok.inj hout
            rw [← hrec]
            exact ⟨rfl, rfl⟩
  refine ⟨hmain.1, hmain.2, ?_, ?_⟩
  · rw [hmain.2, Headers.get_remove_ne _ _ _ (by decide)]
  · intro name hn
    rw [hmain.2]
    exact Headers.valuesOf_remove_ne _ _ _ hn

/-- Claim C7 witness: the canonical gzipped run — upstream carries
content-encoding gzip and content-length 25 with a 25-byte body; the
rewriting handler succeeds and returns the headers with the stale
content-length 25 forwarded verbatim while the rewritten body has a different
length. -/
theorem c7_headers_forwarded_witness :
    (⟨200, (⟨[("content-encoding", "gzip"), ("content-length", "25")]⟩ : Headers).remove
        "transfer-encoding",
      compress_gzip (strReplace "https://storeapi.kobo.com"
        KOBO_API_URL ("http" ++ "://" ++ "localhost:8089"))⟩ : Response).status = 200 ∧
    (⟨200, (⟨[("content-encoding", "gzip"), ("content-length", "25")]⟩ : Headers).remove
        "transfer-encoding",
      compress_gzip (strReplace "https://storeapi.kobo.com"
        KOBO_API_URL ("http" ++ "://" ++ "localhost:8089"))⟩ : Response).headers
      = (⟨[("content-encoding", "gzip"), ("content-length", "25")]⟩ : Headers).remove
          "transfer-encoding" ∧
    (⟨200, (⟨[("content-encoding", "gzip"), ("content-length", "25")]⟩ : Headers).remove
        "transfer-encoding",
      compress_gzip (strReplace "https://storeapi.kobo.com"
        KOBO_API_URL ("http" ++ "://" ++ "localhost:8089"))⟩ : Response).headers.get
        "content-length"
      = (⟨[("content-encoding", "gzip"), ("content-length", "25")]⟩ : Headers).get
          "content-length" ∧
    ∀ name, name ≠ "transfer-encoding" →
      (⟨200, (⟨[("content-encoding", "gzip"), ("content-length", "25")]⟩ : Headers).remove
          "transfer-encoding",
        compress_gzip (strReplace "https://storeapi.kobo.com"
          KOBO_API_URL ("http" ++ "://" ++ "localhost:8089"))⟩ : Response).headers.valuesOf name
        = (⟨[("content-encoding", "gzip"), ("content-length", "25")]⟩ : Headers).valuesOf name := by
  have h := c7_headers_forwarded
    ⟨⟨[.ok ⟨200, ⟨[("content-encoding", "gzip"), ("content-length", "25")]⟩,
        compress_gzip "https://storeapi.kobo.com"⟩], []⟩, "http://localhost:8089"⟩
    ⟨"GET", ⟨some "http", some "localhost:8089", some "/v1/initialization"⟩, ⟨[]⟩, []⟩
    "/v1/initialization"
    ⟨200, ⟨[("content-encoding", "gzip"), ("content-length", "25")]⟩,
      compress_gzip "https://storeapi.kobo.com"⟩ []
    ⟨200, (⟨[("content-encoding", "gzip"), ("content-length", "25")]⟩ : Headers).remove
        "transfer-encoding",
      compress_gzip (strReplace "https://storeapi.kobo.com"
        KOBO_API_URL ("http" ++ "://" ++ "localhost:8089"))⟩
    rfl (by decide) rfl (by decide)
  exact h

end KoboSync
